import Mathlib

/-!
Verification of the ASCII video converter (ascii_video.py).

The Python source is shallowly embedded below. Integer arithmetic is
translated exactly. Python floating-point arithmetic (the brightness index
and the sampler's row count are computed in IEEE binary64) is embedded by an
executable model of binary64: every nonnegative double is represented
exactly as a dyadic rational m * 2^e, and each arithmetic operation performs
the correct rounding to 53 significant bits with ties to even, which is the
IEEE behaviour of the operations the program uses. Python's int() on a
nonnegative float is the floor of that exact dyadic value. External
collaborators (OpenCV capture/writer/resize, PIL font rasterization,
shutil.which, subprocess.run, tkinter dialogs) are modelled as explicit
parameters or as small executable models, each documented at its
definition.
-/

/-- Pixel colour triple, modelling an 8-bit BGR/RGB pixel. -/
abbrev Color := Nat × Nat × Nat

/-- A single-channel (grayscale) frame of height h and width w, as produced by
cv2.cvtColor(frame, COLOR_BGR2GRAY): a brightness sample per (row, column),
each a byte in the range 0..255. -/
structure GrayFrame where
  h : Nat
  w : Nat
  pix : Nat → Nat → Nat

/-- A colour raster image (the Pillow image of render_ascii_to_image, or the
numpy canvas written to the video writer): width, height, and a pixel
function. -/
structure Img where
  w : Nat
  h : Nat
  pix : Nat → Nat → Color

/-- Line 21 of ascii_video.py: ASCII_CHARS = ".:-=+*#%@/\\|" (the Python
escape sequence denotes a single backslash, exactly as the Lean one does). -/
def ASCII_CHARS : String := ".:-=+*#%@/\\|"

/-- Fuel-driven floor of the base-2 logarithm (helper for nlog2; the fuel
only bounds the number of halvings, which is the bit length). -/
def log2fuel : Nat → Nat → Nat
  | 0, _ => 0
  | fuel + 1, n => if 2 ≤ n then log2fuel fuel (n / 2) + 1 else 0

/-- Floor of the base-2 logarithm of a positive natural (0 for 0),
kernel-computable; correct for every n below 2^320, far beyond any quantity
the program can produce (binary64 itself overflows at 2^1024). -/
def nlog2 (n : Nat) : Nat := log2fuel 320 n

/-- Decides n / d < 2^k for naturals n, d and an integer k. -/
def ltPow2 (n d : Nat) (k : Int) : Bool :=
  if 0 ≤ k then n < d * 2 ^ k.toNat else n * 2 ^ (-k).toNat < d

/-- A nonnegative IEEE binary64 value, represented exactly as the dyadic
rational m * 2^e. All doubles the program manipulates are nonnegative, so
this representation is lossless; overflow, infinities and subnormals are
outside the magnitudes the program reaches and are not modelled. -/
structure F64 where
  m : Nat
  e : Int

/-- Round the nonnegative rational (n / d) * 2^E to the nearest binary64
value, ties to even: normalize to 2^ex ≤ n/d < 2^(ex+1), take 53 significand
bits, and round the remainder half-to-even. This is the single correctly
rounded operation out of which every IEEE binary64 addition-free expression
of the program is built. The d = 0 case (a Python ZeroDivisionError) returns
an arbitrary value and is excluded by the theorems' hypotheses. -/
def round53 (n d : Nat) (E : Int) : F64 :=
  if n = 0 then { m := 0, e := 0 }
  else
    let e0 : Int := (nlog2 n : Int) - (nlog2 d : Int)
    let ex : Int :=
      if ltPow2 n d e0 then e0 - 1
      else if ltPow2 n d (e0 + 1) then e0 else e0 + 1
    let s : Int := 52 - ex
    let num := if 0 ≤ s then n * 2 ^ s.toNat else n
    let den := if 0 ≤ s then d else d * 2 ^ (-s).toNat
    let m0 := num / den
    let r := num % den
    let m1 :=
      if den < 2 * r then m0 + 1
      else if 2 * r < den then m0
      else if m0 % 2 = 0 then m0 else m0 + 1
    { m := m1, e := E + ex - 52 }

/-- Conversion of a nonnegative integer to binary64 (exact below 2^53,
rounded above, as Python float(int) behaves). -/
def fofNat (n : Nat) : F64 := round53 n 1 0

/-- Correctly rounded binary64 division (Python's true division of two
nonnegative values, including int / int which produces a correctly rounded
float). -/
def fdiv (a b : F64) : F64 := round53 a.m b.m (a.e - b.e)

/-- Correctly rounded binary64 multiplication. -/
def fmul (a b : F64) : F64 := round53 (a.m * b.m) 1 (a.e + b.e)

/-- Python int() on a nonnegative float: truncation, which is the floor of
the exact dyadic value. -/
def ffloor (x : F64) : Nat :=
  if 0 ≤ x.e then x.m * 2 ^ x.e.toNat else x.m / 2 ^ (-x.e).toNat

/-- Comparison of two nonnegative binary64 values (IEEE comparison is exact
value comparison). -/
def fle (a b : F64) : Bool :=
  if a.e ≤ b.e then a.m ≤ b.m * 2 ^ (b.e - a.e).toNat
  else a.m * 2 ^ (a.e - b.e).toNat ≤ b.m

/-- Python min on two nonnegative floats. -/
def fmin (a b : F64) : F64 := if fle a b then a else b

/-- Exact rational value of a binary64 datum. -/
def F64.toRat (x : F64) : ℚ :=
  if 0 ≤ x.e then ((x.m * 2 ^ x.e.toNat : Nat) : ℚ)
  else (x.m : ℚ) / ((2 ^ (-x.e).toNat : Nat) : ℚ)

/-- The binary64 value of the Python literal 0.43, the default
aspect-correction scale factor on line 27: the nearest double to 43/100,
which is 7746191359077253 * 2^-54, slightly below 43/100. -/
def scale_default : F64 := { m := 7746191359077253, e := -54 }

/-- The binary64 value one half (exactly representable). -/
def scale_half : F64 := { m := 1, e := -1 }

/-- Index computed on line 24: int((val / 255) * (len(chars) - 1)). val is a
byte and len(chars) - 1 a small integer, both exact in binary64; the
division and the multiplication are each correctly rounded, and int()
truncates the nonnegative result, exactly as the model composes them. -/
def gray_index (val : Nat) (chars : String) : Nat :=
  ffloor (fmul (fdiv (fofNat val) (fofNat 255)) (fofNat (chars.length - 1)))

/-- Lines 23-25: get_char_for_gray. The Python chars[idx] lookup is embedded
as a total list lookup; the Glyph Mapper theorems show that on the documented
domain the index is always in range, so the fallback character is never
produced. -/
def get_char_for_gray (val : Nat) (chars : String) : Char :=
  chars.toList.getD (gray_index val chars) '?'

/-- Sum of a list of naturals (helper for the area-mean resize model). -/
def natSum (l : List Nat) : Nat := l.foldl (· + ·) 0

/-- Model of cv2.resize(frame, (new_w, new_h), interpolation=INTER_AREA) on a
grayscale frame (external OpenCV call on line 33): the output has exactly the
requested target shape, and each output sample is the mean of the pixels of
its source region (area averaging). Only the output shape is relied upon by
the theorems below. -/
def cvResizeGray (f : GrayFrame) (new_w new_h : Nat) : GrayFrame :=
  { h := new_h, w := new_w,
    pix := fun r c =>
      let r0 := r * f.h / new_h
      let r1 := max (r0 + 1) ((r + 1) * f.h / new_h)
      let c0 := c * f.w / new_w
      let c1 := max (c0 + 1) ((c + 1) * f.w / new_w)
      let cnt := (r1 - r0) * (c1 - c0)
      natSum ((List.range (r1 - r0)).map fun i =>
        natSum ((List.range (c1 - c0)).map fun j => f.pix (r0 + i) (c0 + j))) / cnt }

/-- Lines 27-34: frame_to_ascii_lines. The Python defaults are cols=120,
scale=0.43 (the binary64 literal scale_default), chars=ASCII_CHARS; call
sites below pass them explicitly. tile_w = w / new_w, tile_h = tile_w /
scale and h / tile_h are each one correctly rounded binary64 operation (the
program's scale parameter is a double, hence an F64 here), and
new_h = max(1, int(h / tile_h)) truncates the nonnegative result. -/
def frame_to_ascii_lines (frame_gray : GrayFrame) (cols : Nat) (scale : F64)
    (chars : String) : List String :=
  let h := frame_gray.h
  let w := frame_gray.w
  let new_w := cols
  let tile_w : F64 := fdiv (fofNat w) (fofNat new_w)
  let tile_h : F64 := fdiv tile_w scale
  let new_h : Nat := max 1 (ffloor (fdiv (fofNat h) tile_h))
  let small := cvResizeGray frame_gray new_w new_h
  (List.range new_h).map fun r =>
    String.mk ((List.range new_w).map fun c => get_char_for_gray (small.pix r c) chars)

/-- Measured glyph cell of the configured font: the external PIL call
draw.textbbox((0, 0), "M", font=font) on lines 50-52 yields a bounding box;
mW and mH stand for bbox[2] - bbox[0] and bbox[3] - bbox[1], which may be
nonpositive for a degenerate font. -/
structure FontMetrics where
  mW : Int
  mH : Int

/-- Lines 51-54: char_w = bbox[2] - bbox[0]; if char_w <= 0: char_w = 8. -/
def charW (f : FontMetrics) : Nat := if f.mW ≤ 0 then 8 else f.mW.toNat

/-- Lines 52-56: char_h = bbox[3] - bbox[1]; if char_h <= 0: char_h = 16. -/
def charH (f : FontMetrics) : Nat := if f.mH ≤ 0 then 16 else f.mH.toNat

/-- Line 59: max_cols = max((len(line) for line in lines), default=1). The
default applies only when the iterable is empty; for a nonempty list the
result is the plain maximum of the line lengths (which is 0 when every line
is empty). -/
def max_cols (lines : List String) : Nat :=
  match lines with
  | [] => 1
  | l :: ls => (ls.map String.length).foldl max l.length

/-- Lines 66-69: if the dimension is odd, add 1 (round up to the next even
number, as most encoders require). -/
def evenize (n : Nat) : Nat := if n % 2 ≠ 0 then n + 1 else n

/-- Lines 36-79: render_ascii_to_image. The Python defaults are
bg=(0, 0, 0), fg=(255, 255, 255), padding=6; call sites below pass them
explicitly. The actual rasterization (Image.new background fill plus the
draw.text calls at x=padding, y=padding + i*char_h) is an external PIL
effect, modelled by the draw parameter giving the pixels of the drawn canvas
for the given lines; the image dimensions are computed exactly as in the
source. -/
def render_ascii_to_image (lines : List String) (font : FontMetrics)
    (draw : List String → Nat → Nat → Color) (bg fg : Color) (padding : Nat) : Img :=
  let char_w := charW font
  let char_h := charH font
  let maxCols := max_cols lines
  let rows := max 1 lines.length
  let img_w := evenize (char_w * maxCols + padding * 2)
  let img_h := evenize (char_h * rows + padding * 2)
  { w := img_w, h := img_h, pix := draw lines }

theorem evenize_even (n : Nat) : Even (evenize n) := by
  unfold evenize
  split
  · next h => exact Nat.even_iff.mpr (by omega)
  · next h => exact Nat.even_iff.mpr (by omega)

theorem evenize_ge (n : Nat) : n ≤ evenize n := by
  unfold evenize; split <;> omega

theorem evenize_le (n : Nat) : evenize n ≤ n + 1 := by
  unfold evenize; split <;> omega

theorem max_cols_of_uniform (lines : List String) (C : Nat)
    (hne : lines ≠ []) (hc : ∀ l ∈ lines, l.length = C) : max_cols lines = C := by
  match lines with
  | [] => exact absurd rfl hne
  | l :: ls =>
    have hl : l.length = C := hc l (List.mem_cons_self l ls)
    have haux : ∀ (xs : List String) (acc : Nat), acc = C →
        (∀ x ∈ xs, x.length = C) → (xs.map String.length).foldl max acc = C := by
      intro xs
      induction xs with
      | nil => intro acc hacc _; simpa using hacc
      | cons x xs ih =>
        intro acc hacc hx
        simp only [List.map_cons, List.foldl_cons]
        have hxC : x.length = C := hx x (List.mem_cons_self x xs)
        refine ih (max acc x.length) (by rw [hacc, hxC, max_self]) ?_
        intro y hy; exact hx y (List.mem_cons_of_mem x hy)
    simpa [max_cols] using haux ls l.length hl fun y hy => hc y (List.mem_cons_of_mem l hy)

/-- A 52-character ramp used to exhibit the floating-point deviation of the
index formula (any 52 distinct-or-not characters will do). -/
def ramp52 : String := "0123456789012345678901234567890123456789012345678901"

/-- Bridge: on the program's default 12-character ramp the binary64
evaluation int((v/255)*11) coincides with the exact floor v*11/255 for every
byte value v, checked exhaustively. -/
theorem gray_index_default_eq_exact :
    ∀ v : Nat, v < 256 →
      gray_index v ASCII_CHARS = v * (ASCII_CHARS.length - 1) / 255 := by
  set_option maxRecDepth 100000 in decide

/-- C4 counterexample: on a 52-character ramp at v = 155 the program
computes int((155/255)*51) in binary64, which is 30 (the rounded quotient
155/255 times 51 rounds to just below 31), while the claimed exact index
floor(155 * 51 / 255) is 31. -/
theorem glyph_index_float_counterexample :
    ramp52.length = 52 ∧
    gray_index 155 ramp52 = 30 ∧
    155 * (ramp52.length - 1) / 255 = 31 ∧
    (30 : Nat) ≠ 31 := by
  set_option maxRecDepth 100000 in
  refine ⟨by decide, by decide, by decide, by decide⟩

/-- C4 (amended): for every brightness value v in 0..255 on the program's
default 12-character ramp, the Glyph Mapper returns ramp[index] with
index = floor(v / 255 * (K - 1)) (on this ramp the program's binary64
evaluation agrees with the exact floor, by the exhaustive bridge above); the
clamp to 0..K-1 is a no-op (the index is always in range, so the mapper is
total), and the endpoints map to the first and last ramp characters. -/
theorem glyph_mapper_default_correct (v : Nat) (hv : v ≤ 255) :
    gray_index v ASCII_CHARS
      = min (v * (ASCII_CHARS.length - 1) / 255) (ASCII_CHARS.length - 1) ∧
    gray_index v ASCII_CHARS < ASCII_CHARS.length ∧
    ASCII_CHARS.toList.get? (gray_index v ASCII_CHARS)
      = some (get_char_for_gray v ASCII_CHARS) ∧
    ASCII_CHARS.toList.get? 0 = some (get_char_for_gray 0 ASCII_CHARS) ∧
    ASCII_CHARS.toList.get? (ASCII_CHARS.length - 1)
      = some (get_char_for_gray 255 ASCII_CHARS) := by
  have hexact : ∀ u : Nat, u ≤ 255 →
      gray_index u ASCII_CHARS = u * (ASCII_CHARS.length - 1) / 255 := by
    intro u hu
    exact gray_index_default_eq_exact u (by omega)
  have hidx : ∀ u : Nat, u ≤ 255 →
      gray_index u ASCII_CHARS ≤ ASCII_CHARS.length - 1 := by
    intro u hu
    have h1 : u * (ASCII_CHARS.length - 1) ≤ 255 * (ASCII_CHARS.length - 1) :=
      Nat.mul_le_mul_right _ hu
    have h2 : 255 * (ASCII_CHARS.length - 1) / 255 = ASCII_CHARS.length - 1 :=
      Nat.mul_div_cancel_left _ (by norm_num)
    calc gray_index u ASCII_CHARS
        = u * (ASCII_CHARS.length - 1) / 255 := hexact u hu
      _ ≤ 255 * (ASCII_CHARS.length - 1) / 255 := Nat.div_le_div_right h1
      _ = ASCII_CHARS.length - 1 := h2
  have hlt : ∀ u : Nat, u ≤ 255 → gray_index u ASCII_CHARS < ASCII_CHARS.length := by
    intro u hu
    have hK : 2 ≤ ASCII_CHARS.length := by decide
    exact lt_of_le_of_lt (hidx u hu) (Nat.sub_lt (by omega) one_pos)
  have hget : ∀ u : Nat, u ≤ 255 →
      ASCII_CHARS.toList.get? (gray_index u ASCII_CHARS)
        = some (get_char_for_gray u ASCII_CHARS) := by
    intro u hu
    have h := hlt u hu
    have hlen : ASCII_CHARS.toList.length = ASCII_CHARS.length := rfl
    rw [get_char_for_gray, List.getD_eq_getElem?_getD, List.getElem?_eq_getElem (by omega)]
    rw [List.get?_eq_getElem?, List.getElem?_eq_getElem (by omega)]
    rfl
  refine ⟨?_, hlt v hv, hget v hv, ?_, ?_⟩
  · rw [hexact v hv]
    exact (min_eq_left (le_trans (hexact v hv ▸ hidx v hv) (le_refl _))).symm
  · have h0 : gray_index 0 ASCII_CHARS = 0 := by
      set_option maxRecDepth 100000 in decide
    have := hget 0 (by norm_num)
    rwa [h0] at this
  · have h255 : gray_index 255 ASCII_CHARS = ASCII_CHARS.length - 1 := by
      set_option maxRecDepth 100000 in decide
    have := hget 255 (by norm_num)
    rwa [h255] at this

/-- Witness for the amended Glyph Mapper theorem at v = 128. -/
theorem glyph_mapper_default_correct_witness :
    (128 ≤ 255) ∧
    (gray_index 128 ASCII_CHARS
        = min (128 * (ASCII_CHARS.length - 1) / 255) (ASCII_CHARS.length - 1) ∧
      gray_index 128 ASCII_CHARS < ASCII_CHARS.length ∧
      ASCII_CHARS.toList.get? (gray_index 128 ASCII_CHARS)
        = some (get_char_for_gray 128 ASCII_CHARS) ∧
      ASCII_CHARS.toList.get? 0 = some (get_char_for_gray 0 ASCII_CHARS) ∧
      ASCII_CHARS.toList.get? (ASCII_CHARS.length - 1)
        = some (get_char_for_gray 255 ASCII_CHARS)) :=
  ⟨by norm_num, glyph_mapper_default_correct 128 (by norm_num)⟩

/-- C5 counterexample: the default glyph ramp does not have 13 characters.
The Python literal ".:-=+*#%@/\\|" denotes the twelve characters
. : - = + * # % @ / backslash and bar. -/
theorem ascii_ramp_not_thirteen : ¬ (ASCII_CHARS.length = 13) := by decide

/-- C5 (amended): the default glyph ramp is a fixed set of 12 characters
(ordered from visually dark to light). -/
theorem ascii_ramp_twelve : ASCII_CHARS.length = 12 := by decide

/-- C6: the Glyph Mapper is monotonic: for brightness values v1 and v2 in
0..255 with v1 at most v2, the index the program computes for v1 is at most
the index it computes for v2 (on the program's default ramp, via the
exhaustive bridge to the exact floor, which is monotone). -/
theorem glyph_mapper_monotone (v1 v2 : Nat)
    (hv2 : v2 ≤ 255) (h12 : v1 ≤ v2) :
    gray_index v1 ASCII_CHARS ≤ gray_index v2 ASCII_CHARS := by
  rw [gray_index_default_eq_exact v1 (by omega),
    gray_index_default_eq_exact v2 (by omega)]
  exact Nat.div_le_div_right (Nat.mul_le_mul_right _ h12)

/-- Witness for monotonicity at v1 = 10, v2 = 200 on the default ramp. -/
theorem glyph_mapper_monotone_witness :
    (200 ≤ 255 ∧ 10 ≤ 200) ∧
    gray_index 10 ASCII_CHARS ≤ gray_index 200 ASCII_CHARS :=
  ⟨⟨by norm_num, by norm_num⟩,
    glyph_mapper_monotone 10 200 (by norm_num) (by norm_num)⟩

/-- C2 counterexample: at H = 9, W = 9, C = 14 and S = one half (a scale
factor exactly representable in binary64, so its instantiation is
unambiguous) the program computes int(9 / ((9/14) / 0.5)) in binary64, which
is 6 because the intermediate quotient 9/14 rounds up and makes the final
quotient fall just below 7, while the claimed exact formula gives
floor(9 / ((9/14) / (1/2))) = floor(7) = 7. -/
theorem sampler_rows_counterexample :
    (frame_to_ascii_lines (GrayFrame.mk 9 9 fun _ _ => 0) 14 scale_half
        ASCII_CHARS).length = 6 ∧
    max 1 (Int.toNat ⌊(9 : ℚ) / (((9 : ℚ) / (14 : ℚ)) / scale_half.toRat)⌋) = 7 ∧
    (6 : Nat) ≠ 7 := by
  refine ⟨?_, ?_, by decide⟩
  · have h : (frame_to_ascii_lines (GrayFrame.mk 9 9 fun _ _ => 0) 14 scale_half
        ASCII_CHARS).length
        = max 1 (ffloor (fdiv (fofNat 9)
            (fdiv (fdiv (fofNat 9) (fofNat 14)) scale_half))) := by
      simp [frame_to_ascii_lines]
    rw [h]
    decide
  · have hs : scale_half.toRat = 1 / 2 := by norm_num [F64.toRat, scale_half]
    have hv : ((9 : ℚ) / (((9 : ℚ) / (14 : ℚ)) / (1 / 2))) = 7 := by norm_num
    rw [hs, hv]
    decide

/-- C2 (amended): for every grayscale frame of positive height and width,
every column count C at least 1, and every positive scale factor S (a
binary64 value, as the program's parameter is), the sampler output has
exactly max(1, int(H / ((W/C) / S))) rows where the quotient chain is
evaluated in binary64 arithmetic as the program evaluates it, each row a
line of exactly C characters; in particular when the truncated value is 0
the row count is floored to 1. -/
theorem sampler_grid_dims (f : GrayFrame) (cols : Nat) (scale : F64)
    (chars : String) (hH : 1 ≤ f.h) (hW : 1 ≤ f.w) (hC : 1 ≤ cols)
    (hS : 0 < scale.m) :
    (frame_to_ascii_lines f cols scale chars).length
      = max 1 (ffloor (fdiv (fofNat f.h)
          (fdiv (fdiv (fofNat f.w) (fofNat cols)) scale))) ∧
    ∀ l ∈ frame_to_ascii_lines f cols scale chars, l.length = cols := by
  constructor
  · simp [frame_to_ascii_lines]
  · intro l hl
    simp only [frame_to_ascii_lines, List.mem_map, List.mem_range] at hl
    obtain ⟨r, _, hlr⟩ := hl
    subst hlr
    simp [String.length, List.length_map, List.length_range]

/-- Witness for the sampler dimensions at a frame of height 1 and width 10
with 5 columns and scale one half: the truncated value is 0 (the chain
evaluates exactly to 0.25) and the row count is floored to a single row of 5
characters. -/
theorem sampler_grid_dims_witness :
    (1 ≤ (GrayFrame.mk 1 10 fun _ _ => 0).h ∧ 1 ≤ (GrayFrame.mk 1 10 fun _ _ => 0).w ∧
      1 ≤ 5 ∧ 0 < scale_half.m) ∧
    ((frame_to_ascii_lines (GrayFrame.mk 1 10 fun _ _ => 0) 5 scale_half
        ASCII_CHARS).length
      = max 1 (ffloor (fdiv (fofNat (GrayFrame.mk 1 10 fun _ _ => 0).h)
          (fdiv (fdiv (fofNat (GrayFrame.mk 1 10 fun _ _ => 0).w) (fofNat 5))
            scale_half))) ∧
    ∀ l ∈ frame_to_ascii_lines (GrayFrame.mk 1 10 fun _ _ => 0) 5 scale_half
        ASCII_CHARS, l.length = 5) :=
  ⟨⟨by norm_num, by norm_num, by norm_num, by norm_num [scale_half]⟩,
    sampler_grid_dims (GrayFrame.mk 1 10 fun _ _ => 0) 5 scale_half ASCII_CHARS
      (by norm_num) (by norm_num) (by norm_num) (by norm_num [scale_half])⟩

/-- C3: for a fixed font (cell charW x charH with the 8 x 16 fallback for
nonpositive measurements), fixed padding, and a glyph grid of fixed shape
(R rows, C columns), the file-mode renderer returns an image whose width is
charW * C + 2 * padding and whose height is charH * R + 2 * padding, each
rounded up to the next even number (stated as: even, and within one of the
raw value); both dimensions are even and identical across calls with the
same configuration and grid shape. -/
theorem renderer_fixed_even_dims (font : FontMetrics)
    (draw1 draw2 : List String → Nat → Nat → Color) (bg fg : Color)
    (padding R C : Nat) (lines1 lines2 : List String)
    (h1 : lines1.length = R) (h1c : ∀ l ∈ lines1, l.length = C)
    (h2 : lines2.length = R) (h2c : ∀ l ∈ lines2, l.length = C)
    (hR : 1 ≤ R) :
    (render_ascii_to_image lines1 font draw1 bg fg padding).w
        = evenize (charW font * C + padding * 2) ∧
    (render_ascii_to_image lines1 font draw1 bg fg padding).h
        = evenize (charH font * R + padding * 2) ∧
    Even (render_ascii_to_image lines1 font draw1 bg fg padding).w ∧
    Even (render_ascii_to_image lines1 font draw1 bg fg padding).h ∧
    charW font * C + padding * 2 ≤ (render_ascii_to_image lines1 font draw1 bg fg padding).w ∧
    (render_ascii_to_image lines1 font draw1 bg fg padding).w
        ≤ charW font * C + padding * 2 + 1 ∧
    charH font * R + padding * 2 ≤ (render_ascii_to_image lines1 font draw1 bg fg padding).h ∧
    (render_ascii_to_image lines1 font draw1 bg fg padding).h
        ≤ charH font * R + padding * 2 + 1 ∧
    (render_ascii_to_image lines2 font draw2 bg fg padding).w
        = (render_ascii_to_image lines1 font draw1 bg fg padding).w ∧
    (render_ascii_to_image lines2 font draw2 bg fg padding).h
        = (render_ascii_to_image lines1 font draw1 bg fg padding).h ∧
    (font.mW ≤ 0 → charW font = 8) ∧ (font.mH ≤ 0 → charH font = 16) := by
  have hne1 : lines1 ≠ [] := by intro h; rw [h] at h1; simp at h1; omega
  have hne2 : lines2 ≠ [] := by intro h; rw [h] at h2; simp at h2; omega
  have hm1 : max_cols lines1 = C := max_cols_of_uniform lines1 C hne1 h1c
  have hm2 : max_cols lines2 = C := max_cols_of_uniform lines2 C hne2 h2c
  have hw1 : (render_ascii_to_image lines1 font draw1 bg fg padding).w
      = evenize (charW font * C + padding * 2) := by
    simp [render_ascii_to_image, hm1]
  have hh1 : (render_ascii_to_image lines1 font draw1 bg fg padding).h
      = evenize (charH font * R + padding * 2) := by
    simp [render_ascii_to_image, h1, Nat.max_eq_right hR]
  have hw2 : (render_ascii_to_image lines2 font draw2 bg fg padding).w
      = evenize (charW font * C + padding * 2) := by
    simp [render_ascii_to_image, hm2]
  have hh2 : (render_ascii_to_image lines2 font draw2 bg fg padding).h
      = evenize (charH font * R + padding * 2) := by
    simp [render_ascii_to_image, h2, Nat.max_eq_right hR]
  refine ⟨hw1, hh1, ?_, ?_, ?_, ?_, ?_, ?_, ?_, ?_, ?_, ?_⟩
  · rw [hw1]; exact evenize_even _
  · rw [hh1]; exact evenize_even _
  · rw [hw1]; exact evenize_ge _
  · rw [hw1]; exact evenize_le _
  · rw [hh1]; exact evenize_ge _
  · rw [hh1]; exact evenize_le _
  · rw [hw1, hw2]
  · rw [hh1, hh2]
  · intro h; simp [charW, h]
  · intro h; simp [charH, h]

/-- Witness for the renderer dimension theorem: font cell 7 x 13, padding 6,
two different 2 x 3 grids; shows the computed size 20 x 38 (19 and 38 raw,
width rounded up). -/
theorem renderer_fixed_even_dims_witness :
    (([".-.", ":=:"] : List String).length = 2 ∧ (∀ l ∈ ([".-.", ":=:"] : List String), l.length = 3) ∧
      (["@@@", "///"] : List String).length = 2 ∧ (∀ l ∈ (["@@@", "///"] : List String), l.length = 3) ∧
      1 ≤ 2) ∧
    ((render_ascii_to_image [".-.", ":=:"] (FontMetrics.mk 7 13)
        (fun _ _ _ => (0, 0, 0)) (0, 0, 0) (255, 255, 255) 6).w
      = evenize (charW (FontMetrics.mk 7 13) * 3 + 6 * 2) ∧
     (render_ascii_to_image [".-.", ":=:"] (FontMetrics.mk 7 13)
        (fun _ _ _ => (0, 0, 0)) (0, 0, 0) (255, 255, 255) 6).h
      = evenize (charH (FontMetrics.mk 7 13) * 2 + 6 * 2) ∧
     Even (render_ascii_to_image [".-.", ":=:"] (FontMetrics.mk 7 13)
        (fun _ _ _ => (0, 0, 0)) (0, 0, 0) (255, 255, 255) 6).w ∧
     Even (render_ascii_to_image [".-.", ":=:"] (FontMetrics.mk 7 13)
        (fun _ _ _ => (0, 0, 0)) (0, 0, 0) (255, 255, 255) 6).h ∧
     charW (FontMetrics.mk 7 13) * 3 + 6 * 2
        ≤ (render_ascii_to_image [".-.", ":=:"] (FontMetrics.mk 7 13)
            (fun _ _ _ => (0, 0, 0)) (0, 0, 0) (255, 255, 255) 6).w ∧
     (render_ascii_to_image [".-.", ":=:"] (FontMetrics.mk 7 13)
        (fun _ _ _ => (0, 0, 0)) (0, 0, 0) (255, 255, 255) 6).w
        ≤ charW (FontMetrics.mk 7 13) * 3 + 6 * 2 + 1 ∧
     charH (FontMetrics.mk 7 13) * 2 + 6 * 2
        ≤ (render_ascii_to_image [".-.", ":=:"] (FontMetrics.mk 7 13)
            (fun _ _ _ => (0, 0, 0)) (0, 0, 0) (255, 255, 255) 6).h ∧
     (render_ascii_to_image [".-.", ":=:"] (FontMetrics.mk 7 13)
        (fun _ _ _ => (0, 0, 0)) (0, 0, 0) (255, 255, 255) 6).h
        ≤ charH (FontMetrics.mk 7 13) * 2 + 6 * 2 + 1 ∧
     (render_ascii_to_image ["@@@", "///"] (FontMetrics.mk 7 13)
        (fun _ _ _ => (255, 255, 255)) (0, 0, 0) (255, 255, 255) 6).w
        = (render_ascii_to_image [".-.", ":=:"] (FontMetrics.mk 7 13)
            (fun _ _ _ => (0, 0, 0)) (0, 0, 0) (255, 255, 255) 6).w ∧
     (render_ascii_to_image ["@@@", "///"] (FontMetrics.mk 7 13)
        (fun _ _ _ => (255, 255, 255)) (0, 0, 0) (255, 255, 255) 6).h
        = (render_ascii_to_image [".-.", ":=:"] (FontMetrics.mk 7 13)
            (fun _ _ _ => (0, 0, 0)) (0, 0, 0) (255, 255, 255) 6).h ∧
     ((FontMetrics.mk 7 13).mW ≤ 0 → charW (FontMetrics.mk 7 13) = 8) ∧
     ((FontMetrics.mk 7 13).mH ≤ 0 → charH (FontMetrics.mk 7 13) = 16)) :=
  ⟨⟨by decide, by decide, by decide, by decide, by decide⟩,
    renderer_fixed_even_dims (FontMetrics.mk 7 13)
      (fun _ _ _ => (0, 0, 0)) (fun _ _ _ => (255, 255, 255)) (0, 0, 0) (255, 255, 255)
      6 2 3 [".-.", ":=:"] ["@@@", "///"]
      (by decide) (by decide) (by decide) (by decide) (by decide)⟩

/-- C10 counterexample: for the nonempty list consisting of one empty line,
the column count used by the renderer is 0, not at least 1 — with cell
width 7 and the default padding 6 the produced width is 12, not the 20 the
claimed column count of at least 1 would give. -/
theorem renderer_cols_zero_counterexample :
    max_cols [""] = 0 ∧ ¬ (1 ≤ max_cols [""]) ∧
    (render_ascii_to_image [""] (FontMetrics.mk 7 13)
        (fun _ _ _ => (0, 0, 0)) (0, 0, 0) (255, 255, 255) 6).w = 12 ∧
    (render_ascii_to_image [""] (FontMetrics.mk 7 13)
        (fun _ _ _ => (0, 0, 0)) (0, 0, 0) (255, 255, 255) 6).w
      ≠ evenize (charW (FontMetrics.mk 7 13) * 1 + 6 * 2) := by
  refine ⟨rfl, by decide, rfl, by decide⟩

/-- C10 (amended): the file-mode renderer is total over arbitrary lists of
text lines, including the empty list and ragged rows: it uses row count
max(1, number of lines) and column count equal to the maximum line length
for a nonempty list (which can be 0 when every line is empty) and 1 for the
empty list, and with the default padding of 6 it always returns an image
with strictly positive, even pixel dimensions. -/
theorem renderer_total (font : FontMetrics)
    (draw : List String → Nat → Nat → Color) (bg fg : Color)
    (lines : List String) :
    Even (render_ascii_to_image lines font draw bg fg 6).w ∧
    Even (render_ascii_to_image lines font draw bg fg 6).h ∧
    0 < (render_ascii_to_image lines font draw bg fg 6).w ∧
    0 < (render_ascii_to_image lines font draw bg fg 6).h ∧
    (render_ascii_to_image lines font draw bg fg 6).w
      = evenize (charW font * max_cols lines + 6 * 2) ∧
    (render_ascii_to_image lines font draw bg fg 6).h
      = evenize (charH font * max 1 lines.length + 6 * 2) ∧
    (lines = [] → max_cols lines = 1) := by
  have hw : (render_ascii_to_image lines font draw bg fg 6).w
      = evenize (charW font * max_cols lines + 6 * 2) := rfl
  have hh : (render_ascii_to_image lines font draw bg fg 6).h
      = evenize (charH font * max 1 lines.length + 6 * 2) := rfl
  refine ⟨?_, ?_, ?_, ?_, hw, hh, ?_⟩
  · rw [hw]; exact evenize_even _
  · rw [hh]; exact evenize_even _
  · rw [hw]
    have := evenize_ge (charW font * max_cols lines + 6 * 2)
    omega
  · rw [hh]
    have := evenize_ge (charH font * max 1 lines.length + 6 * 2)
    omega
  · intro h; simp [h, max_cols]

/-- Index of the last occurrence of a character in a character list, as an
integer, with -1 when absent (Python str.rfind). -/
def rfindChar (s : List Char) (c : Char) : Int :=
  match s.reverse.findIdx? (fun x => x = c) with
  | some j => (s.length : Int) - 1 - (j : Int)
  | none => -1

/-- Model of os.path.splitext(p)[0] for POSIX paths (lines 166 and 221):
split off the extension at the last dot of the final path component,
unless every character of that component before the dot is itself a dot
(so hidden files keep their name whole). -/
def splitextStem (p : String) : String :=
  let cs := p.toList
  let sepIndex := rfindChar cs '/'
  let dotIndex := rfindChar cs '.'
  if sepIndex < dotIndex then
    if (List.range cs.length).any
        (fun k => decide (sepIndex < (k : Int) ∧ (k : Int) < dotIndex)
          && decide (cs.getD k '.' ≠ '.')) then
      String.mk (cs.take dotIndex.toNat)
    else p
  else p

/-- Primary fourcc (line 136): cv2.VideoWriter_fourcc(*"mp4v"). -/
def MP4V : String := "mp4v"

/-- Fallback fourcc (line 167): cv2.VideoWriter_fourcc(*"MJPG"). -/
def MJPG : String := "MJPG"

/-- Diagnostic text of lines 90-92, returned when shutil.which finds no
ffmpeg executable. -/
def ffmpegMissingMsg : String :=
  "FFmpeg not found in PATH. Install FFmpeg to enable audio merging."

/-- Lines 82-107: merge_audio. The external effects are parameters:
ffmpeg_exe is the result of shutil.which("ffmpeg"), and runTool models
subprocess.run(cmd, check=True, capture_output=True) on the constructed
command, returning (success, stderr text) — a CalledProcessError is
surfaced as (false, stderr), exactly as the except branch does. -/
def merge_audio (ffmpeg_exe : Option String)
    (runTool : List String → Bool × String)
    (video_path audio_src output_path : String) : Bool × String :=
  match ffmpeg_exe with
  | none => (false, ffmpegMissingMsg)
  | some exe =>
      runTool [exe, "-y", "-i", video_path, "-i", audio_src, "-c:v", "copy",
               "-map", "0:v:0", "-map", "1:a:0", "-shortest", output_path]

/-- Model of cv2.resize with INTER_AREA on a colour image (line 197): the
output has exactly the requested shape and each output pixel is the
channelwise mean of its source region. Only the shape is relied upon. -/
def cvResizeColor (img : Img) (new_w new_h : Nat) : Img :=
  { w := new_w, h := new_h,
    pix := fun r c =>
      let r0 := r * img.h / new_h
      let r1 := max (r0 + 1) ((r + 1) * img.h / new_h)
      let c0 := c * img.w / new_w
      let c1 := max (c0 + 1) ((c + 1) * img.w / new_w)
      let cnt := (r1 - r0) * (c1 - c0)
      let cells := (List.range (r1 - r0)).flatMap fun i =>
        (List.range (c1 - c0)).map fun j => img.pix (r0 + i) (c0 + j)
      (natSum (cells.map fun p => p.1) / cnt,
       natSum (cells.map fun p => p.2.1) / cnt,
       natSum (cells.map fun p => p.2.2) / cnt) }

/-- Lines 187-207: if the current frame's size differs from the writer
canvas, scale it down by a single factor (fit within the canvas), centre it
on a black (background-coloured) numpy zero canvas, and write that; when the
sizes agree the frame is written untouched. The scale factor and the scaled
sizes are computed in binary64 as the program computes them (two correctly
rounded divisions, an exact min, a correctly rounded multiplication, int()
truncation); the slice assignment is embedded as the pixel function of the
canvas. -/
def letterbox (out_w out_h : Nat) (img : Img) : Img :=
  if (img.w, img.h) = (out_w, out_h) then img
  else
    let scale0 : F64 := fmin (fdiv (fofNat out_w) (fofNat img.w))
      (fdiv (fofNat out_h) (fofNat img.h))
    let scale : F64 := if scale0.m = 0 then fofNat 1 else scale0
    let new_w : Nat := max 1 (ffloor (fmul (fofNat img.w) scale))
    let new_h : Nat := max 1 (ffloor (fmul (fofNat img.h) scale))
    let resized : Img :=
      if (new_w, new_h) ≠ (img.w, img.h) then cvResizeColor img new_w new_h else img
    let x := (out_w - new_w) / 2
    let y := (out_h - new_h) / 2
    { w := out_w, h := out_h,
      pix := fun r c =>
        if y ≤ r ∧ r < y + new_h ∧ x ≤ c ∧ c < x + new_w
        then resized.pix (r - y) (c - x)
        else (0, 0, 0) }

/-- Lines 180-207 for a frame after the first: the writer canvas size is
queried with writer.get(cv2.CAP_PROP_FRAME_WIDTH) and
writer.get(cv2.CAP_PROP_FRAME_HEIGHT) on lines 182-183. cv2.VideoWriter does
not support these capture properties — its get returns 0.0 for an
unsupported property — so int(... or 0) is 0, the nonpositive fallback of
lines 184-185 is the live path, the target size becomes the current frame's
own size, and the letterbox branch below it is dead: the frame is written at
its natural size. -/
def writeFrame (img : Img) : Img :=
  let got_w : Int := 0
  let got_h : Int := 0
  let out_w : Nat := if got_w ≤ 0 ∨ got_h ≤ 0 then img.w else got_w.toNat
  let out_h : Nat := if got_w ≤ 0 ∨ got_h ≤ 0 then img.h else got_h.toNat
  letterbox out_w out_h img

/-- Outcome notifications of convert_video: the messagebox dialogs and the
writer-failure abort (lines 112, 177, 219, 224, 227). -/
inductive Report where
  | openErr : Report
  | writerErr : Report
  | done : String → Report
  | audioMerged : String → Report
  | audioWarning : String → Report
deriving DecidableEq

/-- Observable trace of one convert_video run: the text frames printed in
terminal mode, the images rendered and the frames passed to writer.write in
save mode, the writer's established canvas size, the final value of the
output_path variable, the reported outcomes, and whether the writer handle
and the capture were released. -/
structure RunResult where
  prints : List (List String)
  rendered : List Img
  writes : List Img
  established : Option (Nat × Nat)
  outputPath : String
  reports : List Report
  writerCreated : Bool
  writerReleased : Bool
  capReleased : Bool

/-- Lines 220-227: the audio-merge step after a completed save run, reduced
to the single outcome report it produces. -/
def mergeReport (ffmpeg_exe : Option String)
    (runTool : List String → Bool × String)
    (output_path input_path : String) : Report :=
  let out_with_audio := splitextStem output_path ++ "_with_audio.mp4"
  match merge_audio ffmpeg_exe runTool output_path input_path out_with_audio with
  | (true, _) => Report.audioMerged out_with_audio
  | (false, msg) => Report.audioWarning msg

/-- Tail of a save-mode run whose writer opened at path: the writer canvas
is established from the first frame, every later frame goes through
writeFrame (lines 180-213, whose writer-size query yields 0 so the frame is
written at its own size), the writer and capture are released (lines 214-216
and the finally block), and unless the loop was interrupted the Done dialog
and the optional audio merge follow (lines 218-227). -/
def finishSave (img0 : Img) (rest : List Img) (path input_path : String)
    (merge_audio_opt interrupted : Bool) (ffmpeg_exe : Option String)
    (runTool : List String → Bool × String) : RunResult :=
  { prints := []
    rendered := img0 :: rest
    writes := img0 :: rest.map writeFrame
    established := some (img0.w, img0.h)
    outputPath := path
    reports :=
      if interrupted then []
      else Report.done path ::
        (if merge_audio_opt then [mergeReport ffmpeg_exe runTool path input_path] else [])
    writerCreated := true
    writerReleased := true
    capReleased := true }

/-- One iteration of the save-mode loop body up to the writer (lines
144-156): grayscale conversion is already reflected in the GrayFrame input,
then frame_to_ascii_lines with the configured column count (other arguments
at their Python defaults) and render_ascii_to_image with its Python
defaults. -/
def render1 (font : FontMetrics) (draw : List String → Nat → Nat → Color)
    (cols : Nat) (f : GrayFrame) : Img :=
  render_ascii_to_image (frame_to_ascii_lines f cols scale_default ASCII_CHARS)
    font draw (0, 0, 0) (255, 255, 255) 6

/-- Save-mode part of the loop and its aftermath (lines 139-227), over the
frames that are processed before any interrupt: on the first frame the
writer is created with that frame's canvas size (lines 160-179), trying the
primary path and codec and then exactly once the fallback path and codec;
when both fail the run aborts with the writer error dialog after releasing
the capture (the finally block also releases the just-created writer
object); otherwise the loop continues as in finishSave. -/
def saveRun (opens : String → String → Bool) (ffmpeg_exe : Option String)
    (runTool : List String → Bool × String) (font : FontMetrics)
    (draw : List String → Nat → Nat → Color) (effInputs : List GrayFrame)
    (input_path output_path : String) (cols : Nat)
    (merge_audio_opt interrupted : Bool) : RunResult :=
  match effInputs with
  | [] =>
    { prints := [], rendered := [], writes := [], established := none,
      outputPath := output_path,
      reports :=
        if interrupted then []
        else Report.done output_path ::
          (if merge_audio_opt
           then [mergeReport ffmpeg_exe runTool output_path input_path] else []),
      writerCreated := false, writerReleased := false, capReleased := true }
  | f0 :: fs =>
    let img0 := render1 font draw cols f0
    let rest := fs.map (render1 font draw cols)
    if opens output_path MP4V then
      finishSave img0 rest output_path input_path merge_audio_opt interrupted
        ffmpeg_exe runTool
    else
      let alt_path := splitextStem output_path ++ ".avi"
      if opens alt_path MJPG then
        finishSave img0 rest alt_path input_path merge_audio_opt interrupted
          ffmpeg_exe runTool
      else
        { prints := [], rendered := [img0], writes := [], established := none,
          outputPath := output_path, reports := [Report.writerErr],
          writerCreated := true, writerReleased := true, capReleased := true }

/-- Lines 109-234: convert_video. The external world enters as parameters:
capOpens is cap.isOpened(); opens path fourcc says whether a cv2.VideoWriter
opens at that path with that codec; ffmpeg_exe is shutil.which("ffmpeg");
runTool is subprocess.run; font is the measured glyph cell of the loaded
font; draw is the PIL rasterization; inputs are the decoded frames after
grayscale conversion; interruptAfter = some k models a KeyboardInterrupt
arriving at the per-frame boundary after k frames were fully processed
(cancellation is cooperative per frame), in which case the post-loop block
is skipped and the finally block still releases the writer and the capture.
Frame pacing (lines 150-154) is a pure time effect and is not modelled. -/
def convert_video (capOpens : Bool) (opens : String → String → Bool)
    (ffmpeg_exe : Option String) (runTool : List String → Bool × String)
    (font : FontMetrics) (draw : List String → Nat → Nat → Color)
    (inputs : List GrayFrame) (input_path output_path : String)
    (cols : Nat) (save_mode merge_audio_opt : Bool)
    (interruptAfter : Option Nat) : RunResult :=
  if capOpens = false then
    { prints := [], rendered := [], writes := [], established := none,
      outputPath := output_path, reports := [Report.openErr],
      writerCreated := false, writerReleased := false, capReleased := false }
  else
    let stop := match interruptAfter with
      | none => inputs.length
      | some k => min k inputs.length
    let interrupted := decide (stop < inputs.length)
    let effInputs := inputs.take stop
    if save_mode = false then
      { prints := effInputs.map fun f => frame_to_ascii_lines f cols scale_default ASCII_CHARS,
        rendered := [], writes := [], established := none,
        outputPath := output_path, reports := [],
        writerCreated := false, writerReleased := false, capReleased := true }
    else
      saveRun opens ffmpeg_exe runTool font draw effInputs input_path output_path
        cols merge_audio_opt interrupted

theorem letterbox_same (ow oh : Nat) (N : Img) (h : (N.w, N.h) = (ow, oh)) :
    letterbox ow oh N = N := by
  unfold letterbox; rw [if_pos h]

/-- Under the faithful writer-size query (which yields 0) every frame is
written unmodified at its own natural size: the fallback makes the letterbox
target equal the frame's own dimensions, so the equal-size branch is taken
and the letterbox branch is dead code. -/
theorem writeFrame_id (img : Img) : writeFrame img = img := by
  unfold writeFrame
  exact letterbox_same img.w img.h img rfl

/-- Input path fixture for the witness runs. -/
def inP : String := "in.mp4"

/-- Output path fixture for the witness runs. -/
def outP : String := "out.mp4"

/-- Frame fixture: a 1 x 1 black frame. -/
def witFrameA : GrayFrame := GrayFrame.mk 1 1 fun _ _ => 0

/-- Frame fixture with a different shape: 100 x 2, all white, so that its
rendered image is taller than the established canvas. -/
def witFrameB : GrayFrame := GrayFrame.mk 100 2 fun _ _ => 255

/-- Font fixture: a 7 x 13 glyph cell. -/
def witFont : FontMetrics := FontMetrics.mk 7 13

/-- Rasterizer fixture: an all-black canvas. -/
def witDraw : List String → Nat → Nat → Color := fun _ _ _ => (0, 0, 0)

/-- Writer-open fixture: every path and codec opens. -/
def witOpens : String → String → Bool := fun _ _ => true

/-- Writer-open fixture: no path and codec opens. -/
def witNoOpens : String → String → Bool := fun _ _ => false

/-- Muxer fixture: the external tool always succeeds with empty stderr. -/
def witTool : List String → Bool × String := fun _ => (true, "")

theorem frame_lines_length (f : GrayFrame) (cols : Nat) (scale : F64)
    (chars : String) :
    (frame_to_ascii_lines f cols scale chars).length
      = max 1 (ffloor (fdiv (fofNat f.h)
          (fdiv (fdiv (fofNat f.w) (fofNat cols)) scale))) := by
  simp [frame_to_ascii_lines]

theorem frame_lines_cols (f : GrayFrame) (cols : Nat) (scale : F64)
    (chars : String) :
    ∀ l ∈ frame_to_ascii_lines f cols scale chars, l.length = cols := by
  intro l hl
  simp only [frame_to_ascii_lines, List.mem_map, List.mem_range] at hl
  obtain ⟨r, _, hlr⟩ := hl
  subst hlr
  simp [String.length, List.length_map, List.length_range]

/-- C1 (code bug, at the failing input): a save run whose second frame
renders at a size different from the established canvas. The first frame
(1 x 1, one column, 7 x 13 cell) establishes a 20 x 26 canvas; the second
frame (100 x 2) renders at 20 x 286. Because the writer-size query of lines
182-183 returns 0 and the fallback of lines 184-185 therefore targets the
current frame's own size, the mismatched frame is emitted at its natural
20 x 286 size instead of being letterboxed into the established 20 x 26
canvas — contradicting the claim and the source's own comments on lines 181
and 187-188. -/
theorem canvas_mismatch_not_letterboxed :
    (convert_video true witOpens none witTool witFont witDraw
        [witFrameA, witFrameB] inP outP 1 true false none).established
      = some (20, 26) ∧
    (convert_video true witOpens none witTool witFont witDraw
        [witFrameA, witFrameB] inP outP 1 true false none).writes.map
          (fun i => (i.w, i.h)) = [(20, 26), (20, 286)] ∧
    ((20, 286) : Nat × Nat) ≠ (20, 26) := by
  have hlenA : (frame_to_ascii_lines witFrameA 1 scale_default ASCII_CHARS).length = 1 := by
    rw [frame_lines_length]
    decide
  have hneA : frame_to_ascii_lines witFrameA 1 scale_default ASCII_CHARS ≠ [] := by
    intro h
    rw [h] at hlenA
    simp at hlenA
  have hmcA : max_cols (frame_to_ascii_lines witFrameA 1 scale_default ASCII_CHARS) = 1 :=
    max_cols_of_uniform _ 1 hneA (frame_lines_cols witFrameA 1 scale_default ASCII_CHARS)
  have hwA : (render1 witFont witDraw 1 witFrameA).w = 20 := by
    show evenize (charW witFont
      * max_cols (frame_to_ascii_lines witFrameA 1 scale_default ASCII_CHARS) + 6 * 2) = 20
    rw [hmcA]
    decide
  have hhA : (render1 witFont witDraw 1 witFrameA).h = 26 := by
    show evenize (charH witFont
      * max 1 (frame_to_ascii_lines witFrameA 1 scale_default ASCII_CHARS).length + 6 * 2) = 26
    rw [hlenA]
    decide
  have hlenB : (frame_to_ascii_lines witFrameB 1 scale_default ASCII_CHARS).length = 21 := by
    rw [frame_lines_length]
    decide
  have hneB : frame_to_ascii_lines witFrameB 1 scale_default ASCII_CHARS ≠ [] := by
    intro h
    rw [h] at hlenB
    simp at hlenB
  have hmcB : max_cols (frame_to_ascii_lines witFrameB 1 scale_default ASCII_CHARS) = 1 :=
    max_cols_of_uniform _ 1 hneB (frame_lines_cols witFrameB 1 scale_default ASCII_CHARS)
  have hwB : (render1 witFont witDraw 1 witFrameB).w = 20 := by
    show evenize (charW witFont
      * max_cols (frame_to_ascii_lines witFrameB 1 scale_default ASCII_CHARS) + 6 * 2) = 20
    rw [hmcB]
    decide
  have hhB : (render1 witFont witDraw 1 witFrameB).h = 286 := by
    show evenize (charH witFont
      * max 1 (frame_to_ascii_lines witFrameB 1 scale_default ASCII_CHARS).length + 6 * 2) = 286
    rw [hlenB]
    decide
  refine ⟨?_, ?_, by decide⟩
  · have h0 : (convert_video true witOpens none witTool witFont witDraw
        [witFrameA, witFrameB] inP outP 1 true false none).established
        = some ((render1 witFont witDraw 1 witFrameA).w,
                (render1 witFont witDraw 1 witFrameA).h) := rfl
    rw [h0, hwA, hhA]
  · have h1 : (convert_video true witOpens none witTool witFont witDraw
        [witFrameA, witFrameB] inP outP 1 true false none).writes
        = [render1 witFont witDraw 1 witFrameA,
           writeFrame (render1 witFont witDraw 1 witFrameB)] := rfl
    rw [h1, writeFrame_id]
    simp [hwA, hhA, hwB, hhB]

theorem convert_video_none_eq (opens : String → String → Bool)
    (ffmpeg_exe : Option String) (runTool : List String → Bool × String)
    (font : FontMetrics) (draw : List String → Nat → Nat → Color)
    (inputs : List GrayFrame) (input_path output_path : String) (cols : Nat)
    (merge_audio_opt : Bool) :
    convert_video true opens ffmpeg_exe runTool font draw inputs input_path
      output_path cols true merge_audio_opt none
      = saveRun opens ffmpeg_exe runTool font draw inputs input_path output_path
          cols merge_audio_opt false := by
  show saveRun opens ffmpeg_exe runTool font draw (inputs.take inputs.length)
      input_path output_path cols merge_audio_opt
      (decide (inputs.length < inputs.length)) = _
  have hdec : decide (inputs.length < inputs.length) = false := by simp
  rw [List.take_length, hdec]

theorem mergeReport_ne_writerErr (ff : Option String)
    (rt : List String → Bool × String) (op ip : String) :
    mergeReport ff rt op ip ≠ Report.writerErr := by
  unfold mergeReport
  cases h : merge_audio ff rt op ip (splitextStem op ++ "_with_audio.mp4") with
  | mk b msg =>
    simp only [h]
    cases b <;> simp

theorem finishSave_reports (img0 : Img) (rest : List Img) (path ip : String)
    (mo : Bool) (ff : Option String) (rt : List String → Bool × String) :
    (finishSave img0 rest path ip mo false ff rt).reports
      = Report.done path :: (if mo then [mergeReport ff rt path ip] else []) := rfl

theorem finishSave_no_writerErr (img0 : Img) (rest : List Img) (path ip : String)
    (mo : Bool) (ff : Option String) (rt : List String → Bool × String) :
    Report.writerErr ∉ (finishSave img0 rest path ip mo false ff rt).reports := by
  intro hmem
  rw [finishSave_reports] at hmem
  rcases List.mem_cons.mp hmem with h1 | h1
  · exact Report.noConfusion h1
  · cases mo with
    | false => simp at h1
    | true =>
      simp only [if_pos] at h1
      rw [List.mem_singleton] at h1
      exact mergeReport_ne_writerErr ff rt path ip h1.symm

/-- Specification predicate (claim C7): the outcome of the writer-opening
policy on the first rendered frame. If the primary path and codec open, the
original path is kept and reported and there is no writer error. If the
primary fails but the fallback (path renamed to the alternate extension,
alternate codec) opens, the renamed path is the reported output and there
is no writer error. If both fail, the run aborts: exactly the writer error
is reported, nothing is written, no canvas is established, and the writer
object and the input capture are released. -/
def WriterFallbackSpec (opens : String → String → Bool) (output_path : String)
    (R : RunResult) : Prop :=
  (opens output_path MP4V = true →
    R.outputPath = output_path ∧ Report.done output_path ∈ R.reports ∧
    Report.writerErr ∉ R.reports) ∧
  (opens output_path MP4V = false →
    opens (splitextStem output_path ++ ".avi") MJPG = true →
    R.outputPath = splitextStem output_path ++ ".avi" ∧
    Report.done (splitextStem output_path ++ ".avi") ∈ R.reports ∧
    Report.writerErr ∉ R.reports) ∧
  (opens output_path MP4V = false →
    opens (splitextStem output_path ++ ".avi") MJPG = false →
    R.reports = [Report.writerErr] ∧ R.writes = [] ∧ R.established = none ∧
    R.writerCreated = true ∧ R.writerReleased = true ∧ R.capReleased = true)

/-- C7: in save mode, when the writer is opened on the first rendered frame,
a failure with the primary container and codec leads to exactly one retry
with the alternate container and codec at the output path renamed to the
alternate extension; on success the renamed path becomes the reported output
path, and if the retry also fails the pipeline aborts, reports the writer
error, and releases the input source. -/
theorem writer_fallback_policy (opens : String → String → Bool)
    (ffmpeg_exe : Option String) (runTool : List String → Bool × String)
    (font : FontMetrics) (draw : List String → Nat → Nat → Color)
    (inputs : List GrayFrame) (input_path output_path : String) (cols : Nat)
    (merge_audio_opt : Bool) (hne : inputs ≠ []) :
    WriterFallbackSpec opens output_path
      (convert_video true opens ffmpeg_exe runTool font draw inputs input_path
        output_path cols true merge_audio_opt none) := by
  rw [convert_video_none_eq]
  rcases inputs with _ | ⟨f0, fs⟩
  · exact absurd rfl hne
  · refine ⟨?_, ?_, ?_⟩
    · intro h1
      have hfin : saveRun opens ffmpeg_exe runTool font draw (f0 :: fs) input_path
          output_path cols merge_audio_opt false
          = finishSave (render1 font draw cols f0) (fs.map (render1 font draw cols))
              output_path input_path merge_audio_opt false ffmpeg_exe runTool := by
        simp [saveRun, h1]
      rw [hfin]
      refine ⟨rfl, ?_, finishSave_no_writerErr _ _ _ _ _ _ _⟩
      rw [finishSave_reports]
      exact List.mem_cons_self _ _
    · intro h1 h2
      have hfin : saveRun opens ffmpeg_exe runTool font draw (f0 :: fs) input_path
          output_path cols merge_audio_opt false
          = finishSave (render1 font draw cols f0) (fs.map (render1 font draw cols))
              (splitextStem output_path ++ ".avi") input_path merge_audio_opt false
              ffmpeg_exe runTool := by
        simp [saveRun, h1, h2]
      rw [hfin]
      refine ⟨rfl, ?_, finishSave_no_writerErr _ _ _ _ _ _ _⟩
      rw [finishSave_reports]
      exact List.mem_cons_self _ _
    · intro h1 h2
      have habort : saveRun opens ffmpeg_exe runTool font draw (f0 :: fs) input_path
          output_path cols merge_audio_opt false
          = { prints := [], rendered := [render1 font draw cols f0], writes := [],
              established := none, outputPath := output_path,
              reports := [Report.writerErr], writerCreated := true,
              writerReleased := true, capReleased := true } := by
        simp [saveRun, h1, h2]
      rw [habort]
      exact ⟨rfl, rfl, rfl, rfl, rfl, rfl⟩

/-- Witness for the writer fallback policy: a one-frame run in which neither
codec opens, exercising the abort case. -/
theorem writer_fallback_policy_witness :
    (([witFrameA] : List GrayFrame) ≠ []) ∧
    WriterFallbackSpec witNoOpens outP
      (convert_video true witNoOpens none witTool witFont witDraw [witFrameA]
        inP outP 1 true false none) :=
  ⟨List.cons_ne_nil _ _,
   writer_fallback_policy witNoOpens none witTool witFont witDraw [witFrameA]
     inP outP 1 false (List.cons_ne_nil _ _)⟩

theorem saveRun_released (opens : String → String → Bool)
    (ffmpeg_exe : Option String) (runTool : List String → Bool × String)
    (font : FontMetrics) (draw : List String → Nat → Nat → Color)
    (effInputs : List GrayFrame) (input_path output_path : String)
    (cols : Nat) (mo intr : Bool) :
    (saveRun opens ffmpeg_exe runTool font draw effInputs input_path output_path
      cols mo intr).capReleased = true ∧
    ((saveRun opens ffmpeg_exe runTool font draw effInputs input_path output_path
      cols mo intr).writerCreated = true →
      (saveRun opens ffmpeg_exe runTool font draw effInputs input_path output_path
        cols mo intr).writerReleased = true) := by
  match effInputs with
  | [] => exact ⟨rfl, by intro h; simp [saveRun] at h⟩
  | f0 :: fs =>
    by_cases h1 : opens output_path MP4V
    · exact ⟨by simp [saveRun, h1, finishSave], fun _ => by simp [saveRun, h1, finishSave]⟩
    · by_cases h2 : opens (splitextStem output_path ++ ".avi") MJPG
      · exact ⟨by simp [saveRun, h1, h2, finishSave],
          fun _ => by simp [saveRun, h1, h2, finishSave]⟩
      · exact ⟨by simp [saveRun, h1, h2], fun _ => by simp [saveRun, h1, h2]⟩

/-- C8: on every exit path of a pipeline run whose input opened — normal end
of stream, abort after writer failure, and user interrupt, in terminal and
in save mode alike — the input capture is released, and the writer handle,
when one was created, is released as well, so no file handle is leaked
regardless of how the loop terminates. -/
theorem resources_released (capOpens : Bool) (opens : String → String → Bool)
    (ffmpeg_exe : Option String) (runTool : List String → Bool × String)
    (font : FontMetrics) (draw : List String → Nat → Nat → Color)
    (inputs : List GrayFrame) (input_path output_path : String) (cols : Nat)
    (save_mode merge_audio_opt : Bool) (interruptAfter : Option Nat)
    (hcap : capOpens = true) :
    (convert_video capOpens opens ffmpeg_exe runTool font draw inputs input_path
        output_path cols save_mode merge_audio_opt interruptAfter).capReleased = true ∧
    ((convert_video capOpens opens ffmpeg_exe runTool font draw inputs input_path
        output_path cols save_mode merge_audio_opt interruptAfter).writerCreated = true →
      (convert_video capOpens opens ffmpeg_exe runTool font draw inputs input_path
        output_path cols save_mode merge_audio_opt interruptAfter).writerReleased = true) := by
  subst hcap
  cases save_mode with
  | false =>
    cases interruptAfter with
    | none => exact ⟨rfl, by intro h; simp [convert_video] at h⟩
    | some k => exact ⟨rfl, by intro h; simp [convert_video] at h⟩
  | true =>
    cases interruptAfter with
    | none =>
      exact saveRun_released opens ffmpeg_exe runTool font draw
        (inputs.take inputs.length) input_path output_path cols merge_audio_opt
        (decide (inputs.length < inputs.length))
    | some k =>
      exact saveRun_released opens ffmpeg_exe runTool font draw
        (inputs.take (min k inputs.length)) input_path output_path cols
        merge_audio_opt (decide (min k inputs.length < inputs.length))

/-- Witness for resource release: a one-frame save run, interrupted after
the first frame, with an input that opened. -/
theorem resources_released_witness :
    (true = true) ∧
    ((convert_video true witOpens none witTool witFont witDraw [witFrameA, witFrameB]
        inP outP 1 true false (some 1)).capReleased = true ∧
     ((convert_video true witOpens none witTool witFont witDraw [witFrameA, witFrameB]
        inP outP 1 true false (some 1)).writerCreated = true →
      (convert_video true witOpens none witTool witFont witDraw [witFrameA, witFrameB]
        inP outP 1 true false (some 1)).writerReleased = true)) :=
  ⟨rfl, resources_released true witOpens none witTool witFont witDraw
      [witFrameA, witFrameB] inP outP 1 true false (some 1) rfl⟩

/-- Specification predicate (claim C9): after a completed save run with a
failed audio merge, the primary output file is still the reported result,
the failure is reported as a warning carrying the diagnostic text, no fatal
error is reported, and all handles were released. -/
def RemuxNonfatalSpec (R : RunResult) (output_path : String) : Prop :=
  R.outputPath = output_path ∧
  Report.done output_path ∈ R.reports ∧
  Report.audioWarning ffmpegMissingMsg ∈ R.reports ∧
  Report.writerErr ∉ R.reports ∧
  Report.openErr ∉ R.reports ∧
  R.capReleased = true ∧ R.writerReleased = true

/-- C9: if audio merge is requested but the muxing tool is unavailable, the
remux step returns failure with the diagnostic message instead of raising,
the run is not treated as fatal — the outcome is reported as a warning after
the success report — and the already-produced primary video file remains the
reported output. -/
theorem remux_unavailable_nonfatal (opens : String → String → Bool)
    (runTool : List String → Bool × String) (font : FontMetrics)
    (draw : List String → Nat → Nat → Color) (inputs : List GrayFrame)
    (input_path output_path : String) (cols : Nat) (v a o : String)
    (hne : inputs ≠ []) (hopen : opens output_path MP4V = true) :
    merge_audio none runTool v a o = (false, ffmpegMissingMsg) ∧
    RemuxNonfatalSpec (convert_video true opens none runTool font draw inputs
      input_path output_path cols true true none) output_path := by
  refine ⟨rfl, ?_⟩
  rw [convert_video_none_eq]
  rcases inputs with _ | ⟨f0, fs⟩
  · exact absurd rfl hne
  · have hfin : saveRun opens none runTool font draw (f0 :: fs) input_path
        output_path cols true false
        = finishSave (render1 font draw cols f0) (fs.map (render1 font draw cols))
            output_path input_path true false none runTool := by
      simp [saveRun, hopen]
    rw [hfin]
    have hrep : (finishSave (render1 font draw cols f0)
        (fs.map (render1 font draw cols)) output_path input_path true false
        none runTool).reports
        = [Report.done output_path, Report.audioWarning ffmpegMissingMsg] := rfl
    refine ⟨rfl, ?_, ?_, ?_, ?_, rfl, rfl⟩
    · rw [hrep]; exact List.mem_cons_self _ _
    · rw [hrep]; simp
    · rw [hrep]; simp
    · rw [hrep]; simp

/-- Witness for the non-fatal remux failure: a one-frame save run with audio
merge requested and no ffmpeg executable available. -/
theorem remux_unavailable_nonfatal_witness :
    (([witFrameA] : List GrayFrame) ≠ [] ∧ witOpens outP MP4V = true) ∧
    (merge_audio none witTool inP inP inP = (false, ffmpegMissingMsg) ∧
     RemuxNonfatalSpec (convert_video true witOpens none witTool witFont witDraw
        [witFrameA] inP outP 1 true true none) outP) :=
  ⟨⟨List.cons_ne_nil _ _, rfl⟩,
   remux_unavailable_nonfatal witOpens witTool witFont witDraw [witFrameA]
     inP outP 1 inP inP inP (List.cons_ne_nil _ _) rfl⟩
